import Mathlib

/-!
Verification of the docker_updater repository (src/updater.py and
src/notification.py) against its natural-language specification.

The Python code is shallowly embedded: pure fragments become Lean
functions, the Docker daemon / registry / croniter library are abstracted
as explicit oracle inputs (the value each external call returns or the
exception it raises), and Python strings are modelled through their
character lists so that every definition evaluates inside the kernel.
Python string primitives (strip, startswith, split, lower, the `in`
containment test) are re-implemented character by character below.
-/

/-- Characters removed by Python `str.strip()` with no argument
(ASCII whitespace; the exotic unicode spaces never appear in the
configuration lines the claims are about). -/
def python_space_chars : List Char := [' ', '\t', '\n', '\r', Char.ofNat 11, Char.ofNat 12]

/-- Test used by the model of `str.strip()`. -/
def py_is_space (c : Char) : Bool := python_space_chars.contains c

/-- Python `str.strip()` on a character list. -/
def py_strip_chars (cs : List Char) : List Char :=
  ((cs.dropWhile py_is_space).reverse.dropWhile py_is_space).reverse

/-- Python `str.strip()`. -/
def py_strip (s : String) : String := ⟨py_strip_chars s.data⟩

/-- Python `s.startswith(p)`. -/
def py_startswith (s p : String) : Bool := p.data.isPrefixOf s.data

/-- Python `str.lower()` (ASCII case folding, which is all the
configuration values in the claims use). -/
def py_lower (s : String) : String := ⟨s.data.map Char.toLower⟩

/-- Python `str.upper()`. -/
def py_upper (s : String) : String := ⟨s.data.map Char.toUpper⟩

/-- Python `sep in s` for a single-character separator. -/
def py_has_char (s : String) (c : Char) : Bool := s.data.contains c

/-- Python `s.split(sep, 1)` for a single-character separator that is known
to occur in `s`: the part before the first occurrence and the part after it. -/
def py_split_once (sep : Char) (cs : List Char) : List Char × List Char :=
  (cs.takeWhile (fun c => !(c == sep)), (cs.dropWhile (fun c => !(c == sep))).drop 1)

/-- Python `s.split(sep)` for a single-character separator: splits at every
occurrence; `"".split(sep)` is `[""]`, as in Python. -/
def py_split_chars (sep : Char) : List Char → List (List Char)
  | [] => [[]]
  | c :: rest =>
    match py_split_chars sep rest with
    | [] => [[]]
    | h :: t => if c == sep then [] :: h :: t else (c :: h) :: t

/-- Python `s.split(sep)` on strings. -/
def py_split (s : String) (sep : Char) : List String :=
  (py_split_chars sep s.data).map (fun cs => (⟨cs⟩ : String))

/-- Python substring containment `needle in hay`. -/
def py_substring (needle hay : String) : Bool :=
  (List.range (hay.data.length + 1)).any (fun i => needle.data.isPrefixOf (hay.data.drop i))

/-- The double-quote character. -/
def double_quote_char : Char := Char.ofNat 34

/-- The single-quote character. -/
def single_quote_char : Char := Char.ofNat 39

/-- Quote stripping of load_env_file (src/updater.py lines 260-263):
`value[1:-1]` when the value both starts and ends with `"`, else when it
both starts and ends with a single quote.  As in Python, a one-character
quoted value such as `"` strips to the empty string. -/
def strip_matching_quotes (v : String) : String :=
  if v.data.head? == some double_quote_char && v.data.getLast? == some double_quote_char then
    ⟨(v.data.drop 1).dropLast⟩
  else if v.data.head? == some single_quote_char && v.data.getLast? == some single_quote_char then
    ⟨(v.data.drop 1).dropLast⟩
  else v

/-- Result record of load_env_file (src/updater.py lines 230-306).  The two
Python sets `exclude_containers` and `exclude_images` are modelled as the
lists of inserted items, in insertion order; the claims settled here only
speak about their members, never about duplicate counts. -/
structure EnvConfig where
  containers : List String
  images : List String
  log_level : Option String
  auto_update : Bool
  watchless_schedule : String
deriving Repr, DecidableEq

/-- The values the local variables of load_env_file hold before any line
is processed (src/updater.py lines 231-235). -/
def initial_env_config : EnvConfig :=
  { containers := []
    images := []
    log_level := none
    auto_update := false
    watchless_schedule := "0 0 * * *" }

/-- Comma splitting of the exclusion values (src/updater.py lines 266-268
and 270-272): split on commas, strip each item, drop items that strip to
the empty string. -/
def split_csv_items (value : String) : List String :=
  ((py_split value ',').map py_strip).filter (fun item => !(item == ""))

/-- One iteration of the line loop of load_env_file (src/updater.py lines
249-280): strip the line; skip it when empty or a comment; when the line
contains an equals sign, split on the first one, strip key and value,
strip matching surrounding quotes from the value, then dispatch on the
key.  `AUTO_UPDATE` is set from `value.lower() in ('true')`, and since the
parenthesised `('true')` in the source is the plain string `'true'`, that
test is Python substring containment, embedded here by `py_substring`. -/
def process_env_line (cfg : EnvConfig) (raw : String) : EnvConfig :=
  let line := py_strip raw
  if (line == "") || py_startswith line "#" then cfg
  else if py_has_char line '=' then
    let kv := py_split_once '=' line.data
    let key := py_strip ⟨kv.1⟩
    let value := strip_matching_quotes (py_strip ⟨kv.2⟩)
    if key == "EXCLUDE_CONTAINERS" && !(value == "") then
      { cfg with containers := cfg.containers ++ split_csv_items value }
    else if key == "EXCLUDE_IMAGES" && !(value == "") then
      { cfg with images := cfg.images ++ split_csv_items value }
    else if key == "LOG_LEVEL" && !(value == "") then
      { cfg with log_level := some (py_upper value) }
    else if key == "AUTO_UPDATE" && !(value == "") then
      { cfg with auto_update := py_substring (py_lower value) "true" }
    else if key == "WATCHLESS_SCHEDULE" && !(value == "") then
      { cfg with watchless_schedule := value }
    else cfg
  else cfg

/-- load_env_file (src/updater.py lines 230-306).  The filesystem is
abstracted as the pair `file_exists` (the `Path(env_path).exists()` test)
and `lines` (the lines of the file when it exists).  When the file is
missing the defaults are returned unchanged; otherwise every line is
processed in order. -/
def load_env_file (file_exists : Bool) (lines : List String) : EnvConfig :=
  if !file_exists then initial_env_config
  else lines.foldl process_env_line initial_env_config

/-- Embedding of DockerUpdateChecker.get_remote_digest (src/updater.py
lines 73-85).  The registry probe is abstracted as its outcome:
`descriptor_digest` is the digest string found under `Descriptor.digest`
of get_registry_data, or none when the probe raised or the descriptor or
its digest was absent.  Python truthiness in `if digest:` sends an empty
digest string to the final `return None`.  The source computes
`repo = image_name.split(':')[0]`, the maximal prefix of the reference
containing no colon, and returns `f"{repo}@{digest}"`. -/
def get_remote_digest (image_name : String) (descriptor_digest : Option String) : Option String :=
  match descriptor_digest with
  | some d =>
    if d == "" then none
    else some ((⟨image_name.data.takeWhile (fun c => !(c == ':'))⟩ : String) ++ "@" ++ d)
  | none => none

/-- The seven-character marker `@sha256` that precedes the colon of a
digest suffix. -/
def sha256_marker : List Char := "@sha256".data

/-- Whether position `i` of `cs` holds a colon that is part of a
`@sha256:` digest suffix, i.e. a colon immediately preceded by the seven
characters `@sha256`. -/
def colon_inside_sha256 (cs : List Char) (i : Nat) : Bool :=
  decide (7 ≤ i) && ((cs.drop (i - 7)).take 7 == sha256_marker)

/-- Repository portion as the specification words it, for comparison with
get_remote_digest: everything before the first colon that lies outside a
`@sha256:` digest suffix; when every colon lies inside such a suffix, or
there is no colon at all, the reference is returned whole. -/
def spec_repository (s : String) : String :=
  match (List.range s.data.length).find?
      (fun i => (s.data.getD i ' ' == ':') && !(colon_inside_sha256 s.data i)) with
  | some i => ⟨s.data.take i⟩
  | none => s

/-- One eligible container as seen by check_for_updates (src/updater.py
lines 87-130): the name, id and image reference collected by
fetch_container_images, together with the outcome of the two digest
lookups for its image.  `local_digest` is `RepoDigests[0]` from the local
image record, or none when images.get raised or the field was missing
(get_local_digest, lines 64-71); `remote_digest` is the result of
get_remote_digest.  The claims quantify over these outcomes. -/
structure CheckEntry where
  name : String
  id : String
  image : String
  local_digest : Option String
  remote_digest : Option String
deriving Repr, DecidableEq

/-- Python truthiness of an optional string: `not x` is true exactly when
`x` is None or the empty string. -/
def py_truthy_str : Option String → Bool
  | none => false
  | some s => !(s == "")

/-- One element of the `updates_available` list built by check_for_updates
(src/updater.py lines 112-118). -/
structure UpdateItem where
  container : String
  container_id : String
  image : String
  local_digest : String
  remote_digest : String
deriving Repr, DecidableEq

/-- One element of the `up_to_date` list of check_for_updates and of the
`successful` list of update_containers: the dicts with keys `container`
and `image` (src/updater.py lines 122-125 and 187-190). -/
structure ReportItem where
  container : String
  image : String
deriving Repr, DecidableEq

/-- One element of the `failed` list of update_containers (src/updater.py
lines 194-198): container, image and the stringified exception. -/
structure FailItem where
  container : String
  image : String
  error : String
deriving Repr, DecidableEq

/-- DockerUpdateChecker.check_for_updates (src/updater.py lines 87-130)
over the already-filtered container list.  Per container (lines 97-125):
when `not local_digest or not remote_digest` — Python truthiness, so a
missing or empty digest on either side — the container is skipped with a
warning; otherwise the two digest strings are compared and the container
is appended to `updates_available` when they differ and to `up_to_date`
when they are equal.  The early return for an empty container list
(lines 90-92) yields the same pair of empty lists as the loop. -/
def check_for_updates : List CheckEntry → List UpdateItem × List ReportItem
  | [] => ([], [])
  | e :: rest =>
    let r := check_for_updates rest
    if !(py_truthy_str e.local_digest) || !(py_truthy_str e.remote_digest) then r
    else if !(e.local_digest == e.remote_digest) then
      ({ container := e.name
         container_id := e.id
         image := e.image
         local_digest := e.local_digest.getD ""
         remote_digest := e.remote_digest.getD "" } :: r.1, r.2)
    else (r.1, ({ container := e.name, image := e.image } : ReportItem) :: r.2)

/-- Outcome of the Docker calls made while replacing one container, in the
order update_containers performs them (src/updater.py lines 143-184):
containers.get, images.pull, container.stop, container.remove,
containers.create, new_container.start, and the network connect loop.
Each field is none when the call succeeds and `some msg` when it raises an
exception whose str() is `msg`. -/
structure ReplaceOracle where
  container_get : Option String
  image_pull : Option String
  container_stop : Option String
  container_remove : Option String
  container_create : Option String
  container_start : Option String
  network_connect : Option String
deriving Repr, DecidableEq

/-- The exception that escapes the try block for one container, if any:
the first failing stage aborts the remaining stages, so the first `some`
in execution order is the caught exception. -/
def replace_outcome (o : ReplaceOracle) : Option String :=
  o.container_get <|> o.image_pull <|> o.container_stop <|> o.container_remove <|>
    o.container_create <|> o.container_start <|> o.network_connect

/-- DockerUpdateChecker.update_containers (src/updater.py lines 132-203).
The Docker side effects of replacing one container are abstracted as the
per-container `stages` oracle.  For each entry of the input list, in
order: when every stage succeeds the `{container, image}` dict is appended
to `successful` (lines 187-190); when any stage raises, the except branch
appends `{container, image, error: str(e)}` to `failed` (lines 192-198)
and the loop continues with the next entry. -/
def update_containers (stages : UpdateItem → ReplaceOracle) :
    List UpdateItem → List ReportItem × List FailItem
  | [] => ([], [])
  | x :: rest =>
    let r := update_containers stages rest
    match replace_outcome (stages x) with
    | none => (({ container := x.container, image := x.image } : ReportItem) :: r.1, r.2)
    | some e =>
      (r.1, ({ container := x.container, image := x.image, error := e } : FailItem) :: r.2)

/-- Network handling of update_containers (src/updater.py lines 160-184)
as a function of the ordered key list of the snapshot's
`NetworkSettings.Networks` dict.  The loop at lines 160-164 keeps a
network name when it differs from `bridge` or the dict has exactly one
entry; the create call at line 173 attaches the first kept network (None
when none is kept, modelled as `Option.none`); lines 181-184 connect every
kept network after the first once the new container has started.  The
result is the pair (network passed to create, networks connected after
start). -/
def plan_networks (nets : List String) : Option String × List String :=
  let networks := nets.filter (fun n => !(n == "bridge") || nets.length == 1)
  (networks.head?, if 1 < networks.length then networks.drop 1 else [])

/-- The auto-update branch of run_update_check (src/updater.py lines
343-348): update_containers runs exactly when the auto_update flag is set
and `updates_available` is non-empty; otherwise no container is touched
and the successful and failed partitions of the run are empty. -/
def run_update_partitions (auto_update : Bool) (ua : List UpdateItem)
    (stages : UpdateItem → ReplaceOracle) : List ReportItem × List FailItem :=
  if auto_update && !ua.isEmpty then update_containers stages ua else ([], [])

/-- One iteration of the scheduler loop of main (src/updater.py lines
419-443), abstracting croniter as the function `cron` that maps a time to
the next fire time strictly after it and datetime.now() as the integer
`now` (seconds; datetime subtraction and comparison become integer
subtraction and comparison).  With no previous run the check runs when the
next fire is at most 60 seconds away (lines 422-429); with a previous run
it runs when `now` has reached the next fire computed from `last_run`
(lines 433-439).  The result is (whether run_update_check ran, the new
last_run). -/
def sched_step (cron : Int → Int) (last_run : Option Int) (now : Int) : Bool × Option Int :=
  match last_run with
  | none => if cron now - now ≤ 60 then (true, some now) else (false, none)
  | some t => if cron t ≤ now then (true, some now) else (false, some t)

/-- The times at which the scheduler loop fires run_update_check, when the
successive iterations observe the clock values `nows`. -/
def sched_fires (cron : Int → Int) : Option Int → List Int → List Int
  | _, [] => []
  | lr, now :: rest =>
    let s := sched_step cron lr now
    if s.1 then now :: sched_fires cron s.2 rest else sched_fires cron s.2 rest

/-- The two run modes of main (src/updater.py lines 401-490). -/
inductive RunMode where
  | scheduled : RunMode
  | oneshot : RunMode
deriving Repr, DecidableEq

/-- validate_cron_schedule (src/updater.py lines 309-316), with the
croniter constructor abstracted as its outcome: ok when the expression
parses, error when the constructor raises.  The except branch logs and
returns False, so an invalid expression never propagates an exception. -/
def validate_cron_schedule (parse_result : Except String Unit) : Bool :=
  match parse_result with
  | .ok _ => true
  | .error _ => false

/-- Mode selection of main (src/updater.py lines 401-449): with a truthy
schedule string that validates, the scheduled loop is entered; an invalid
schedule is reset to None (line 404) and, like an empty schedule, falls
through to the one-shot block at line 449. -/
def select_mode (schedule : String) (parse_result : Except String Unit) : RunMode :=
  if !(schedule == "") then
    (if validate_cron_schedule parse_result then RunMode.scheduled else RunMode.oneshot)
  else RunMode.oneshot

/-- How many update checks main executes: in scheduled mode one per
scheduler fire, in one-shot mode exactly one (the single
check_for_updates call of the block at src/updater.py lines 449-489). -/
def update_check_count (schedule : String) (parse_result : Except String Unit)
    (cron : Int → Int) (nows : List Int) : Nat :=
  match select_mode schedule parse_result with
  | RunMode.scheduled => (sched_fires cron none nows).length
  | RunMode.oneshot => 1

/-- Minimal model of the two kinds of Python value compared against
`'true'` in the dispatch block of src/notification.py (lines 155-173): a
string, or the uncalled bound method object that the expression
`setup['gotify'].lower` (line 166, written without call parentheses)
evaluates to. -/
inductive PyVal where
  | str : String → PyVal
  | boundMethod : PyVal
deriving Repr, DecidableEq

/-- Python `==` restricted to the values above: string equality between
strings; a bound method object never equals a string (the comparison
returns NotImplemented both ways and falls back to identity, hence
False). -/
def py_val_eq : PyVal → PyVal → Bool
  | .str a, .str b => a == b
  | .boundMethod, .boundMethod => true
  | _, _ => false

/-- Condition under which the dispatch block calls notification_mail
(src/notification.py line 160): `setup['email'].lower() == 'true'`,
given that EMAIL_NOTIFICATION holds the string `v`. -/
def email_dispatched (v : String) : Bool := py_val_eq (.str (py_lower v)) (.str "true")

/-- Condition under which the dispatch block calls notification_ntfy
(src/notification.py line 163). -/
def ntfy_dispatched (v : String) : Bool := py_val_eq (.str (py_lower v)) (.str "true")

/-- Condition under which the dispatch block calls notification_gotify
(src/notification.py line 166): `setup['gotify'].lower == 'true'` — the
lower method is not called, so a bound method object is compared against
the string. -/
def gotify_dispatched (_v : String) : Bool := py_val_eq .boundMethod (.str "true")

/-- Condition under which the dispatch block calls notfication_teams
(src/notification.py line 169). -/
def teams_dispatched (v : String) : Bool := py_val_eq (.str (py_lower v)) (.str "true")

/-- Condition under which the dispatch block calls notification_slack
(src/notification.py line 172). -/
def slack_dispatched (v : String) : Bool := py_val_eq (.str (py_lower v)) (.str "true")

/-- Characterisation of update_containers shared by several results below:
the successful partition is exactly the image of the inputs whose every
stage succeeded, the failed partition is exactly the image of the inputs
whose replacement raised, with the caught message, and together they
account for every input. -/
lemma update_containers_spec (stages : UpdateItem → ReplaceOracle) (xs : List UpdateItem) :
    (update_containers stages xs).1 =
      (xs.filter (fun x => (replace_outcome (stages x)).isNone)).map
        (fun x => ({ container := x.container, image := x.image } : ReportItem)) ∧
    (update_containers stages xs).2 =
      xs.filterMap (fun x =>
        (replace_outcome (stages x)).map
          (fun e => ({ container := x.container, image := x.image, error := e } : FailItem))) ∧
    (update_containers stages xs).1.length + (update_containers stages xs).2.length
      = xs.length := by
  induction xs with
  | nil => exact ⟨rfl, rfl, rfl⟩
  | cons x rest ih =>
    obtain ⟨ih1, ih2, ih3⟩ := ih
    cases h : replace_outcome (stages x) with
    | none =>
      refine ⟨?_, ?_, ?_⟩
      · simp [update_containers, h, ih1, List.filter_cons]
      · simp [update_containers, h, ih2, List.filterMap_cons]
      · simp only [update_containers, h, List.length_cons]
        omega
    | some e =>
      refine ⟨?_, ?_, ?_⟩
      · simp [update_containers, h, ih1, List.filter_cons]
      · simp [update_containers, h, ih2, List.filterMap_cons]
      · simp only [update_containers, h, List.length_cons]
        omega

/-- C10: when the configuration file does not exist at the given path,
load_env_file raises no error and returns the defaults: empty exclusion
lists, no log level, auto_update false and the schedule `0 0 * * *`. -/
theorem load_env_file_missing_defaults (lines : List String) :
    load_env_file false lines = initial_env_config ∧
    (load_env_file false lines).containers = [] ∧
    (load_env_file false lines).images = [] ∧
    (load_env_file false lines).log_level = none ∧
    (load_env_file false lines).auto_update = false ∧
    (load_env_file false lines).watchless_schedule = "0 0 * * *" :=
  ⟨rfl, rfl, rfl, rfl, rfl, rfl⟩

/-- C1: evaluation of the parser at the failing input.  The source tests
`value.lower() in ('true')`, and `('true')` is the string `'true'`, so the
value `t` — which is not the word `true` under case-insensitive
comparison — still enables auto-update; every value that is not a
substring of `true`, such as `false`, disables it, and with the flag
disabled the successful and failed partitions of a run are empty whatever
updates are available. -/
theorem auto_update_flag_substring_bug :
    (load_env_file true ["AUTO_UPDATE=t"]).auto_update = true ∧
    (py_lower "t" == "true") = false ∧
    (load_env_file true ["AUTO_UPDATE=TRUE"]).auto_update = true ∧
    (load_env_file true ["AUTO_UPDATE=false"]).auto_update = false ∧
    (∀ (ua : List UpdateItem) (stages : UpdateItem → ReplaceOracle),
      run_update_partitions false ua stages = ([], [])) :=
  ⟨by decide, by decide, by decide, by decide, fun _ _ => rfl⟩

/-- C8: an invalid cron expression makes validate_cron_schedule return
false instead of propagating the exception, main falls back to one-shot
mode without entering the scheduled loop, and exactly one update check
executes. -/
theorem invalid_cron_one_shot (schedule msg : String) (cron : Int → Int) (nows : List Int) :
    validate_cron_schedule (Except.error msg) = false ∧
    select_mode schedule (Except.error msg) = RunMode.oneshot ∧
    update_check_count schedule (Except.error msg) cron nows = 1 := by
  have h2 : select_mode schedule (Except.error msg) = RunMode.oneshot := by
    unfold select_mode
    cases hb : (schedule == "") <;> simp [validate_cron_schedule]
  refine ⟨rfl, h2, ?_⟩
  unfold update_check_count
  rw [h2]

/-- C6 counterexample: with GOTIFY_NOTIFICATION holding the string `true`
the gotify sink is not invoked, because line 166 of src/notification.py
compares the uncalled bound method `setup['gotify'].lower` against
`'true'`; and with EMAIL_NOTIFICATION holding `TRUE` — a string other
than `true` — the email sink is invoked, because the comparison lowercases
the value first. -/
theorem notification_dispatch_counterexample :
    gotify_dispatched "true" = false ∧
    email_dispatched "TRUE" = true ∧ ("TRUE" == "true") = false := by
  refine ⟨rfl, by decide, by decide⟩

/-- C6 amended: the email, ntfy, MS Teams and Slack sinks are invoked
exactly when their enable flag string equals `true` after lower-casing,
and the gotify sink is never invoked, for any flag value. -/
theorem notification_dispatch_amended (v : String) :
    (email_dispatched v = true ↔ py_lower v = "true") ∧
    (ntfy_dispatched v = true ↔ py_lower v = "true") ∧
    (teams_dispatched v = true ↔ py_lower v = "true") ∧
    (slack_dispatched v = true ↔ py_lower v = "true") ∧
    gotify_dispatched v = false := by
  refine ⟨?_, ?_, ?_, ?_, rfl⟩ <;>
    simp [email_dispatched, ntfy_dispatched, teams_dispatched, slack_dispatched, py_val_eq]

/-- C7: every input container of update_containers lands in exactly one of
the successful and failed partitions; an exception at any stage of one
container's replacement puts that container into failed together with the
exception message, and the loop continues through the remaining inputs,
which all still get partitioned. -/
theorem update_containers_partition (stages : UpdateItem → ReplaceOracle)
    (xs : List UpdateItem) :
    (update_containers stages xs).1 =
      (xs.filter (fun x => (replace_outcome (stages x)).isNone)).map
        (fun x => ({ container := x.container, image := x.image } : ReportItem)) ∧
    (update_containers stages xs).2 =
      xs.filterMap (fun x =>
        (replace_outcome (stages x)).map
          (fun e => ({ container := x.container, image := x.image, error := e } : FailItem))) ∧
    (update_containers stages xs).1.length + (update_containers stages xs).2.length
      = xs.length :=
  update_containers_spec stages xs

/-- C9: the line rules of the configuration parser.  Lines are trimmed
and ignored when empty or starting with `#` (first conjunct, for every
state and every line); a KEY=VALUE line splits on the first `=` only (an
`=` inside the value survives); matching surrounding double quotes are
stripped, as are matching single quotes, while unmatched quotes are kept;
and the comma-separated exclusion values are split with each item trimmed
and empty items dropped, so `EXCLUDE_CONTAINERS="a, b ,c"` yields the
names a, b, c. -/
theorem env_parser_rules :
    (∀ (cfg : EnvConfig) (line : String),
      py_strip line = "" ∨ py_startswith (py_strip line) "#" = true →
      process_env_line cfg line = cfg) ∧
    (load_env_file true ["EXCLUDE_CONTAINERS=\"a, b ,c\""]).containers = ["a", "b", "c"] ∧
    (load_env_file true ["EXCLUDE_IMAGES=a=b"]).images = ["a=b"] ∧
    (load_env_file true ["EXCLUDE_IMAGES=x,,  ,y"]).images = ["x", "y"] ∧
    (load_env_file true ["LOG_LEVEL=\"info\""]).log_level = some "INFO" ∧
    (load_env_file true
      ["LOG_LEVEL=" ++ (⟨[single_quote_char]⟩ : String) ++ "inf" ++ ⟨[single_quote_char]⟩]
      ).log_level = some "INF" ∧
    (load_env_file true ["LOG_LEVEL=\"info"]).log_level = some "\"INFO" := by
  refine ⟨?_, by decide, by decide, by decide, by decide, by decide, by decide⟩
  intro cfg line h
  have hb : ((py_strip line == "") || py_startswith (py_strip line) "#") = true := by
    rcases h with h | h
    · simp [h]
    · simp [h]
  simp [process_env_line, hb]

/-- Witness for the universally quantified conjunct of env_parser_rules:
a comment line with leading whitespace leaves the state unchanged. -/
theorem env_parser_rules_witness :
    process_env_line initial_env_config "  # comment" = initial_env_config :=
  env_parser_rules.1 initial_env_config "  # comment" (Or.inr (by decide))

/-- C4: network selection of the replacement engine.  A snapshot whose
only network is `bridge` keeps `bridge` at create time; a snapshot with
more than one network suppresses `bridge`, passes the first remaining
network to create and connects exactly the further remaining networks
after start; in particular the pair bridge-and-X is created on X with
nothing further to connect. -/
theorem replacement_network_selection :
    plan_networks ["bridge"] = (some "bridge", []) ∧
    (∀ nets : List String, 1 < nets.length →
      (plan_networks nets).1 = (nets.filter (fun n => !(n == "bridge"))).head? ∧
      (plan_networks nets).2 = (nets.filter (fun n => !(n == "bridge"))).drop 1 ∧
      (plan_networks nets).1 ≠ some "bridge" ∧
      "bridge" ∉ (plan_networks nets).2) ∧
    (∀ x : String, x ≠ "bridge" →
      plan_networks ["bridge", x] = (some x, []) ∧
      plan_networks [x, "bridge"] = (some x, [])) := by
  refine ⟨by decide, ?_, ?_⟩
  · intro nets hlen
    have h1 : (nets.length == 1) = false := by
      simp only [beq_eq_false_iff_ne]
      omega
    have hfilter : nets.filter (fun n => !(n == "bridge") || nets.length == 1)
        = nets.filter (fun n => !(n == "bridge")) := by
      apply List.filter_congr
      intro a _
      rw [h1, Bool.or_false]
    have hmem : ∀ b ∈ nets.filter (fun n => !(n == "bridge")), ¬(b = "bridge") := by
      intro b hb
      have := (List.mem_filter.mp hb).2
      simpa using this
    refine ⟨?_, ?_, ?_, ?_⟩
    · simp [plan_networks, hfilter]
    · simp only [plan_networks, hfilter]
      by_cases hl : 1 < (nets.filter (fun n => !(n == "bridge"))).length
      · simp [hl]
      · have : (nets.filter (fun n => !(n == "bridge"))).length ≤ 1 := by omega
        simp [hl, List.drop_eq_nil_of_le this]
    · simp only [plan_networks, hfilter]
      intro hc
      have : "bridge" ∈ nets.filter (fun n => !(n == "bridge")) := by
        cases hf : nets.filter (fun n => !(n == "bridge")) with
        | nil => rw [hf] at hc; simp at hc
        | cons a t =>
          rw [hf] at hc
          simp only [List.head?_cons, Option.some.injEq] at hc
          rw [hc]
          exact List.mem_cons_self "bridge" t
      exact hmem "bridge" this rfl
    · simp only [plan_networks, hfilter]
      intro hc
      have hdrop : "bridge" ∈ nets.filter (fun n => !(n == "bridge")) := by
        by_cases hl : 1 < (nets.filter (fun n => !(n == "bridge"))).length
        · simp only [hl, if_true] at hc
          exact List.mem_of_mem_drop hc
        · simp only [hl, if_false] at hc
          simp at hc
      exact hmem "bridge" hdrop rfl
  · intro x hx
    have hxb : (x == "bridge") = false := by
      simp only [beq_eq_false_iff_ne]
      exact hx
    constructor <;> simp [plan_networks, hxb]

/-- Witness for replacement_network_selection: the bridge-and-one pair is
created on the non-bridge network with no later connects, and with three
networks the first non-bridge network is the create-time attachment. -/
theorem replacement_network_selection_witness :
    plan_networks ["bridge", "net1"] = (some "net1", []) ∧
    (plan_networks ["a", "bridge", "b"]).1
      = ((["a", "bridge", "b"] : List String).filter (fun n => !(n == "bridge"))).head? :=
  ⟨(replacement_network_selection.2.2 "net1" (by decide)).1,
   (replacement_network_selection.2.1 ["a", "bridge", "b"] (by decide)).1⟩

/-- A list containing no colon is returned whole by the colon-splitting
takeWhile used in get_remote_digest. -/
lemma takeWhile_no_colon (cs : List Char) (h : ∀ c ∈ cs, (c == ':') = false) :
    cs.takeWhile (fun c => !(c == ':')) = cs := by
  induction cs with
  | nil => rfl
  | cons c t ih =>
    have hc := h c (List.mem_cons_self c t)
    simp only [List.takeWhile_cons, hc, Bool.not_false, if_true]
    rw [ih (fun d hd => h d (List.mem_cons_of_mem c hd))]

/-- Splitting at the first colon of `a ++ : :: b` returns `a` when `a`
itself contains no colon. -/
lemma takeWhile_until_colon (a b : List Char) (h : ∀ c ∈ a, (c == ':') = false) :
    (a ++ ':' :: b).takeWhile (fun c => !(c == ':')) = a := by
  induction a with
  | nil => simp [List.takeWhile_cons]
  | cons c t ih =>
    have hc := h c (List.mem_cons_self c t)
    simp only [List.cons_append, List.takeWhile_cons, hc, Bool.not_false, if_true]
    rw [ih (fun d hd => h d (List.mem_cons_of_mem c hd))]

/-- C2 counterexample: for the digest-pinned, tagless reference
`nginx@sha256:aaa` the only colon lies inside the `@sha256:` suffix, so
the repository portion in the specification's sense is the whole
reference, while get_remote_digest splits at that colon and produces
`nginx@sha256@sha256:bbb` — not the value the claim describes. -/
theorem get_remote_digest_counterexample :
    get_remote_digest "nginx@sha256:aaa" (some "sha256:bbb")
      = some "nginx@sha256@sha256:bbb" ∧
    spec_repository "nginx@sha256:aaa" = "nginx@sha256:aaa" ∧
    (get_remote_digest "nginx@sha256:aaa" (some "sha256:bbb")
      == some (spec_repository "nginx@sha256:aaa" ++ "@" ++ "sha256:bbb")) = false := by
  refine ⟨by decide, by decide, by decide⟩

/-- C2 amended: when the registry probe yields a non-empty descriptor
digest, get_remote_digest returns repository-at-digest where the
repository is everything before the first colon of the image reference —
a plain split that does not look for a `@sha256:` suffix: any reference
written colon-free repository, colon, remainder splits at that first
colon, and a reference without any colon is used whole. -/
theorem get_remote_digest_plain_split (repo rest d : String)
    (hrepo : ':' ∉ repo.data) (hd : d ≠ "") :
    get_remote_digest (repo ++ ":" ++ rest) (some d) = some (repo ++ "@" ++ d) ∧
    get_remote_digest repo (some d) = some (repo ++ "@" ++ d) := by
  have hdb : (d == "") = false := beq_eq_false_iff_ne.mpr hd
  have hall : ∀ c ∈ repo.data, (c == ':') = false := by
    intro c hcm
    apply beq_eq_false_iff_ne.mpr
    intro hceq
    exact hrepo (hceq ▸ hcm)
  constructor
  · unfold get_remote_digest
    simp only [hdb, Bool.false_eq_true, if_false, Option.some.injEq]
    have hdata : (repo ++ ":" ++ rest).data = repo.data ++ ':' :: rest.data := by
      rw [String.data_append, String.data_append]
      simp
    rw [hdata, takeWhile_until_colon repo.data rest.data hall]
  · unfold get_remote_digest
    simp only [hdb, Bool.false_eq_true, if_false, Option.some.injEq]
    rw [takeWhile_no_colon repo.data hall]

/-- Witness for get_remote_digest_plain_split at the tagged reference
`nginx:1.25` with descriptor digest `sha256:bbb`. -/
theorem get_remote_digest_plain_split_witness :
    get_remote_digest "nginx:1.25" (some "sha256:bbb") = some "nginx@sha256:bbb" :=
  (get_remote_digest_plain_split "nginx" "1.25" "sha256:bbb" (by decide) (by decide)).1

/-- The three possible effects of one loop iteration of check_for_updates
on the result pair: skip, prepend to updates_available, or prepend to
up_to_date. -/
lemma check_cons_cases (a : CheckEntry) (rest : List CheckEntry) :
    check_for_updates (a :: rest) = check_for_updates rest ∨
    check_for_updates (a :: rest) =
      ({ container := a.name, container_id := a.id, image := a.image,
         local_digest := a.local_digest.getD "",
         remote_digest := a.remote_digest.getD "" } :: (check_for_updates rest).1,
       (check_for_updates rest).2) ∨
    check_for_updates (a :: rest) =
      ((check_for_updates rest).1,
       ({ container := a.name, image := a.image } : ReportItem) :: (check_for_updates rest).2) := by
  simp only [check_for_updates]
  by_cases hg : (!(py_truthy_str a.local_digest) || !(py_truthy_str a.remote_digest)) = true
  · left
    simp [hg]
  · right
    have hg' := eq_false_of_ne_true hg
    by_cases hn : (!(a.local_digest == a.remote_digest)) = true
    · left
      simp [hg', hn]
    · right
      have hn' := eq_false_of_ne_true hn
      simp [hg', hn']

/-- Processing one more container never removes anything already placed
in either partition. -/
lemma check_tail_mono (a : CheckEntry) (rest : List CheckEntry) :
    ((check_for_updates rest).1 ⊆ (check_for_updates (a :: rest)).1) ∧
    ((check_for_updates rest).2 ⊆ (check_for_updates (a :: rest)).2) := by
  rcases check_cons_cases a rest with h | h | h <;> rw [h]
  · exact ⟨List.Subset.refl _, List.Subset.refl _⟩
  · exact ⟨List.subset_cons_self _ _, List.Subset.refl _⟩
  · exact ⟨List.Subset.refl _, List.subset_cons_self _ _⟩

/-- A container whose digests are both truthy and equal is placed in the
up_to_date partition, whatever the other containers do. -/
lemma check_utd_mem : ∀ (entries : List CheckEntry) (e : CheckEntry), e ∈ entries →
    py_truthy_str e.local_digest = true → py_truthy_str e.remote_digest = true →
    e.local_digest = e.remote_digest →
    ({ container := e.name, image := e.image } : ReportItem) ∈ (check_for_updates entries).2 := by
  intro entries
  induction entries with
  | nil => intro e he h1 h2 h3; exact absurd he (List.not_mem_nil e)
  | cons a rest ih =>
    intro e he h1 h2 heq
    rcases List.mem_cons.mp he with rfl | hmem
    · have hg : (!(py_truthy_str e.local_digest) || !(py_truthy_str e.remote_digest)) = false := by
        rw [h1, h2]
        rfl
      have hb : (e.local_digest == e.remote_digest) = true := by
        rw [heq]
        exact beq_self_eq_true _
      simp only [check_for_updates, hg, hb]
      simp
    · exact (check_tail_mono a rest).2 (ih e hmem h1 h2 heq)

/-- A container whose digests are both truthy and differ is placed in the
updates_available partition, whatever the other containers do. -/
lemma check_ua_mem : ∀ (entries : List CheckEntry) (e : CheckEntry), e ∈ entries →
    py_truthy_str e.local_digest = true → py_truthy_str e.remote_digest = true →
    e.local_digest ≠ e.remote_digest →
    ({ container := e.name, container_id := e.id, image := e.image,
       local_digest := e.local_digest.getD "",
       remote_digest := e.remote_digest.getD "" } : UpdateItem)
      ∈ (check_for_updates entries).1 := by
  intro entries
  induction entries with
  | nil => intro e he h1 h2 h3; exact absurd he (List.not_mem_nil e)
  | cons a rest ih =>
    intro e he h1 h2 hne
    rcases List.mem_cons.mp he with rfl | hmem
    · have hg : (!(py_truthy_str e.local_digest) || !(py_truthy_str e.remote_digest)) = false := by
        rw [h1, h2]
        rfl
      have hb : (e.local_digest == e.remote_digest) = false := beq_eq_false_iff_ne.mpr hne
      simp only [check_for_updates, hg, hb]
      simp
    · exact (check_tail_mono a rest).1 (ih e hmem h1 h2 hne)

/-- When every entry carrying a given name fails the truthiness guard,
that name reaches neither partition of check_for_updates. -/
lemma check_skip_name : ∀ (entries : List CheckEntry) (n : String),
    (∀ e ∈ entries, e.name = n →
      (!(py_truthy_str e.local_digest) || !(py_truthy_str e.remote_digest)) = true) →
    n ∉ (check_for_updates entries).1.map UpdateItem.container ∧
    n ∉ (check_for_updates entries).2.map ReportItem.container := by
  intro entries
  induction entries with
  | nil =>
    intro n _
    exact ⟨by simp [check_for_updates], by simp [check_for_updates]⟩
  | cons a rest ih =>
    intro n h
    have hrest := ih n (fun e he hn => h e (List.mem_cons_of_mem a he) hn)
    by_cases hg : (!(py_truthy_str a.local_digest) || !(py_truthy_str a.remote_digest)) = true
    · have hcase : check_for_updates (a :: rest) = check_for_updates rest := by
        simp only [check_for_updates]
        simp [hg]
      rw [hcase]
      exact hrest
    · have han : ¬(a.name = n) := fun hn => hg (h a (List.mem_cons_self a rest) hn)
      have hg' := eq_false_of_ne_true hg
      by_cases hn2 : (!(a.local_digest == a.remote_digest)) = true
      · have hcase : check_for_updates (a :: rest) =
            ({ container := a.name, container_id := a.id, image := a.image,
               local_digest := a.local_digest.getD "",
               remote_digest := a.remote_digest.getD "" } :: (check_for_updates rest).1,
             (check_for_updates rest).2) := by
          simp only [check_for_updates]
          simp [hg', hn2]
        rw [hcase]
        refine ⟨?_, hrest.2⟩
        simp only [List.map_cons, List.mem_cons]
        rintro (hc | hc)
        · exact han hc.symm
        · exact hrest.1 hc
      · have hn2' := eq_false_of_ne_true hn2
        have hcase : check_for_updates (a :: rest) =
            ((check_for_updates rest).1,
             ({ container := a.name, image := a.image } : ReportItem)
               :: (check_for_updates rest).2) := by
          simp only [check_for_updates]
          simp [hg', hn2']
        rw [hcase]
        refine ⟨hrest.1, ?_⟩
        simp only [List.map_cons, List.mem_cons]
        rintro (hc | hc)
        · exact han hc.symm
        · exact hrest.2 hc

/-- A name absent from the updates_available inputs is absent from both
partitions of update_containers. -/
lemma update_skip_name (stages : UpdateItem → ReplaceOracle) (xs : List UpdateItem) (n : String)
    (h : n ∉ xs.map UpdateItem.container) :
    n ∉ (update_containers stages xs).1.map ReportItem.container ∧
    n ∉ (update_containers stages xs).2.map FailItem.container := by
  obtain ⟨h1, h2, _⟩ := update_containers_spec stages xs
  constructor
  · rw [h1]
    intro hc
    rw [List.map_map, List.mem_map] at hc
    obtain ⟨x, hx, hxc⟩ := hc
    exact h (List.mem_map.mpr ⟨x, (List.mem_filter.mp hx).1, hxc⟩)
  · rw [h2]
    intro hc
    rw [List.mem_map] at hc
    obtain ⟨f, hf, hfc⟩ := hc
    rw [List.mem_filterMap] at hf
    obtain ⟨x, hx, hxf⟩ := hf
    cases ho : replace_outcome (stages x) with
    | none => rw [ho] at hxf; simp at hxf
    | some e =>
      rw [ho] at hxf
      injection hxf with hinj
      apply h
      exact List.mem_map.mpr ⟨x, hx, by rw [← hfc, ← hinj]⟩

/-- C3 counterexample: a container whose digests are both the empty
string — non-bottom on both sides and byte-identical — is skipped by
check_for_updates instead of being placed in up_to_date, because the
source tests Python truthiness (`not local_digest`), which is true for
the empty string as well as for None. -/
theorem check_empty_digest_counterexample :
    ((some "" : Option String) == none) = false ∧
    check_for_updates [(⟨"web", "c1", "nginx", some "", some ""⟩ : CheckEntry)] = ([], []) :=
  ⟨by decide, rfl⟩

/-- C3 amended: for every eligible container, when both digests are
non-bottom and non-empty a byte-identical pair lands in up_to_date and a
differing pair lands in updates_available, whatever the other containers
look like (so every container is processed); when either digest is
missing or empty the container's name is absent from up_to_date,
updates_available, and from both partitions of the subsequent
update_containers run over the updates_available list (assuming container
names are unique, as Docker enforces). -/
theorem digest_classification (entries : List CheckEntry)
    (stages : UpdateItem → ReplaceOracle) (e : CheckEntry) (he : e ∈ entries) :
    (py_truthy_str e.local_digest = true → py_truthy_str e.remote_digest = true →
      ((e.local_digest = e.remote_digest →
        ({ container := e.name, image := e.image } : ReportItem)
          ∈ (check_for_updates entries).2) ∧
       (e.local_digest ≠ e.remote_digest →
        ({ container := e.name, container_id := e.id, image := e.image,
           local_digest := e.local_digest.getD "",
           remote_digest := e.remote_digest.getD "" } : UpdateItem)
          ∈ (check_for_updates entries).1))) ∧
    ((py_truthy_str e.local_digest = false ∨ py_truthy_str e.remote_digest = false) →
      (entries.map CheckEntry.name).Nodup →
      e.name ∉ (check_for_updates entries).2.map ReportItem.container ∧
      e.name ∉ (check_for_updates entries).1.map UpdateItem.container ∧
      e.name ∉ (update_containers stages (check_for_updates entries).1).1.map
        ReportItem.container ∧
      e.name ∉ (update_containers stages (check_for_updates entries).1).2.map
        FailItem.container) := by
  constructor
  · intro h1 h2
    exact ⟨fun heq => check_utd_mem entries e he h1 h2 heq,
           fun hne => check_ua_mem entries e he h1 h2 hne⟩
  · intro hfal hnodup
    have hall : ∀ x ∈ entries, x.name = e.name →
        (!(py_truthy_str x.local_digest) || !(py_truthy_str x.remote_digest)) = true := by
      intro x hx hxn
      have hxe : x = e := List.inj_on_of_nodup_map hnodup hx he hxn
      rw [hxe]
      rcases hfal with hf | hf
      · simp [hf]
      · simp [hf]
    have hmain := check_skip_name entries e.name hall
    have hupd := update_skip_name stages (check_for_updates entries).1 e.name hmain.1
    exact ⟨hmain.2, hmain.1, hupd.1, hupd.2⟩

/-- Witness for digest_classification: a container with equal truthy
digests is reported up to date, and a container with a missing local
digest reaches no partition. -/
theorem digest_classification_witness :
    (⟨"web", "nginx"⟩ : ReportItem) ∈
      (check_for_updates [(⟨"web", "c1", "nginx", some "sha", some "sha"⟩ : CheckEntry)]).2 ∧
    "db" ∉ ((check_for_updates
      [(⟨"db", "c2", "pg", none, some "sha"⟩ : CheckEntry)]).2.map ReportItem.container) := by
  constructor
  · exact ((digest_classification
      [(⟨"web", "c1", "nginx", some "sha", some "sha"⟩ : CheckEntry)]
      (fun _ => (⟨none, none, none, none, none, none, none⟩ : ReplaceOracle))
      (⟨"web", "c1", "nginx", some "sha", some "sha"⟩ : CheckEntry)
      (by simp)).1 (by decide) (by decide)).1 rfl
  · exact ((digest_classification
      [(⟨"db", "c2", "pg", none, some "sha"⟩ : CheckEntry)]
      (fun _ => (⟨none, none, none, none, none, none, none⟩ : ReplaceOracle))
      (⟨"db", "c2", "pg", none, some "sha"⟩ : CheckEntry)
      (by simp)).2 (Or.inl (by decide)) (by decide)).1

/-- The fire times of the scheduler loop are a subsequence of the observed
clock values. -/
lemma sched_fires_sublist (cron : Int → Int) :
    ∀ (nows : List Int) (lr : Option Int), List.Sublist (sched_fires cron lr nows) nows := by
  intro nows
  induction nows with
  | nil => intro lr; exact List.Sublist.refl []
  | cons now rest ih =>
    intro lr
    by_cases h : (sched_step cron lr now).1 = true
    · have : sched_fires cron lr (now :: rest) =
          now :: sched_fires cron (sched_step cron lr now).2 rest := by
        simp only [sched_fires, h, if_true]
      rw [this]
      exact (ih _).cons₂ now
    · have h' := eq_false_of_ne_true h
      have : sched_fires cron lr (now :: rest) =
          sched_fires cron (sched_step cron lr now).2 rest := by
        simp only [sched_fires, h']
        simp
      rw [this]
      exact (ih _).cons now

/-- Consecutive fire times straddle a cron fire: the fires form a chain in
which each later fire is at or past the next cron time computed from the
fire before it; moreover with a recorded last run the first fire waits for
its next cron time. -/
lemma sched_fires_chain (cron : Int → Int) :
    ∀ (nows : List Int) (lr : Option Int),
      List.Chain' (fun a b => cron a ≤ b) (sched_fires cron lr nows) ∧
      (∀ t y, lr = some t → (sched_fires cron lr nows).head? = some y → cron t ≤ y) := by
  intro nows
  induction nows with
  | nil =>
    intro lr
    exact ⟨List.chain'_nil, fun t y _ hy => by simp [sched_fires] at hy⟩
  | cons now rest ih =>
    intro lr
    match lr with
    | none =>
      by_cases h : cron now - now ≤ 60
      · have hstep : sched_step cron none now = (true, some now) := by
          simp [sched_step, h]
        have hfire : sched_fires cron none (now :: rest) =
            now :: sched_fires cron (some now) rest := by
          simp [sched_fires, hstep]
        have hrest := ih (some now)
        constructor
        · rw [hfire, List.chain'_cons']
          exact ⟨fun y hy => hrest.2 now y rfl hy, hrest.1⟩
        · intro t y ht
          exact absurd ht (by simp)
      · have hstep : sched_step cron none now = (false, none) := by
          simp [sched_step, h]
        have hfire : sched_fires cron none (now :: rest) =
            sched_fires cron none rest := by
          simp only [sched_fires, hstep]
          simp
        rw [hfire]
        exact ⟨(ih none).1, fun t y ht => absurd ht (by simp)⟩
    | some t0 =>
      by_cases h : cron t0 ≤ now
      · have hstep : sched_step cron (some t0) now = (true, some now) := by
          simp [sched_step, h]
        have hfire : sched_fires cron (some t0) (now :: rest) =
            now :: sched_fires cron (some now) rest := by
          simp [sched_fires, hstep]
        have hrest := ih (some now)
        constructor
        · rw [hfire, List.chain'_cons']
          exact ⟨fun y hy => hrest.2 now y rfl hy, hrest.1⟩
        · intro t y ht hy
          rw [hfire] at hy
          simp only [List.head?_cons, Option.some.injEq] at hy
          have ht' : t0 = t := by injection ht
          rw [← ht', ← hy]
          exact h
      · have hstep : sched_step cron (some t0) now = (false, some t0) := by
          simp [sched_step, h]
        have hfire : sched_fires cron (some t0) (now :: rest) =
            sched_fires cron (some t0) rest := by
          simp only [sched_fires, hstep]
          simp
        rw [hfire]
        have hrest := ih (some t0)
        exact ⟨hrest.1, fun t y ht hy => hrest.2 t y ht hy⟩

/-- C5: one scheduler iteration fires exactly when either no run has
happened yet and the next cron time is at most 60 seconds away, or a run
has happened and the current time has reached the next cron time computed
from it; a fired iteration records the iteration's now as the new last
run; and along any loop whose observed clock strictly increases, the fire
times strictly increase and every pair of consecutive fires straddles a
cron fire, so no cron fire is duplicated. -/
theorem scheduler_fire_condition (cron : Int → Int) :
    (∀ (lr : Option Int) (now : Int),
      ((sched_step cron lr now).1 = true ↔
        (lr = none ∧ cron now - now ≤ 60) ∨ (∃ t, lr = some t ∧ cron t ≤ now)) ∧
      ((sched_step cron lr now).1 = true → (sched_step cron lr now).2 = some now)) ∧
    (∀ nows : List Int, nows.Pairwise (fun a b => a < b) →
      (sched_fires cron none nows).Pairwise (fun a b => a < b) ∧
      (sched_fires cron none nows).Chain' (fun a b => cron a ≤ b)) := by
  constructor
  · intro lr now
    constructor
    · cases lr with
      | none => by_cases h : cron now - now ≤ 60 <;> simp [sched_step, h]
      | some t0 => by_cases h : cron t0 ≤ now <;> simp [sched_step, h]
    · cases lr with
      | none =>
        by_cases h : cron now - now ≤ 60 <;> simp [sched_step, h]
      | some t0 =>
        by_cases h : cron t0 ≤ now <;> simp [sched_step, h]
  · intro nows hp
    exact ⟨hp.sublist (sched_fires_sublist cron nows none),
           (sched_fires_chain cron nows none).1⟩

/-- Witness for scheduler_fire_condition with the cron function that fires
every 60 seconds and two loop iterations 100 seconds apart: both fire,
the fire times strictly increase, and the first step records last run 0. -/
theorem scheduler_fire_condition_witness :
    (sched_fires (fun t => t + 60) none [0, 100]).Pairwise (fun a b => a < b) ∧
    (sched_step (fun t => t + 60) none 0).2 = some 0 :=
  ⟨((scheduler_fire_condition (fun t => t + 60)).2 [0, 100] (by decide)).1,
   ((scheduler_fire_condition (fun t => t + 60)).1 none 0).2 (by decide)⟩
